import Mathlib

/-!
# swap-reaper: the decision loop of `daemon/daemon.go`

A shallow embedding of `checkLoop` and `cleanSwap`.

Conventions of the embedding.

* `uint64` values are natural numbers; the one addition the loop performs on them
  (`mem.SwapUsed+mem.MemUsed`) is reduced modulo `2^64`.
* `float64` values (`maxMem`, `la.Min1`, `maxLA`) are the rational numbers they
  denote. Every `float64` operation of line 287 (the conversions, the division, the
  product, the difference) is the exact operation followed by `roundF64`, rounding to
  the nearest binary64 number with ties to even. NaN and infinities are not represented:
  no quantity of line 287 reaches `2^1024`.
* `time.Time` is an integer count of nanoseconds since Go's zero instant, so that
  `t.IsZero()` is `t = 0`; `time.Duration` is an integer count of nanoseconds and
  `time.Since(t)` is the difference of the clock reading and `t`.
* The probes (`system.GetMemUsage`, `system.GetLA`), the clock and the command
  runner behind `exec.Command(..).Run()` are inputs of a tick.
* Logging has no effect on the loop variables and is left out; so is the second
  `system.GetMemUsage()` call after a successful cleaning, which only feeds a log line.
-/

namespace Daemon

/-! ## Durations -/

/-- One second of `time.Duration`, in nanoseconds. -/
def Second : Int := 1000000000

/-- One minute of `time.Duration` (`time.Minute`), in nanoseconds. -/
def Minute : Int := 60 * Second

/-- One hour of `time.Duration` (`time.Hour`), in nanoseconds. -/
def Hour : Int := 60 * Minute

/-- Two's complement reduction of an integer to the `int64` range. -/
def wrapInt64 (x : Int) : Int := (x + 2 ^ 63) % 2 ^ 64 - 2 ^ 63

/-! ## binary64 arithmetic -/

/-- Rounding of a rational to the nearest integer, ties to the even one. -/
def roundHalfEven (y : ℚ) : Int :=
  if y - ⌊y⌋ < 1 / 2 then ⌊y⌋
  else if 1 / 2 < y - ⌊y⌋ then ⌊y⌋ + 1
  else if ⌊y⌋ % 2 = 0 then ⌊y⌋ else ⌊y⌋ + 1

/-- The exponent of the binade of a non-zero `x` in binary64: `⌊log2 |x|⌋`, and `-1022`
throughout the subnormal range. -/
def binade (x : ℚ) : Int := max (Int.log 2 |x|) (-1022)

/-- The spacing of the binary64 numbers around `x`: 53 significant bits. -/
def ulp (x : ℚ) : ℚ := 2 ^ (binade x - 52)

/-- The binary64 number nearest to `x`, ties to even: the result of a `float64` operation
whose exact result is `x`. -/
def roundF64 (x : ℚ) : ℚ :=
  if x = 0 then 0 else ulp x * (roundHalfEven (x / ulp x) : ℚ)

/-! ## Swap Cycler: `cleanSwap` -/

/-- An external command as built by `exec.Command(name, args...)`. -/
structure Cmd where
  name : String
  args : List String
deriving DecidableEq, Repr

/-- The command `exec.Command("swapoff", "-a")`. -/
def cmdOff : Cmd := ⟨"swapoff", ["-a"]⟩

/-- The command `exec.Command("swapon", "-a")`. -/
def cmdOn : Cmd := ⟨"swapon", ["-a"]⟩

/-- What is observable after `cmd.Run()`: whether it returned a non-nil error, and the
`cmd.ProcessState` it left behind (`none` is the nil pointer of a command that never
started, `some c` a process state whose `ExitCode()` is `c`). -/
structure RunResult where
  failed : Bool
  processState : Option Int
deriving DecidableEq, Repr

/-- The method `(*os.ProcessState).ExitCode`: `-1` on a nil receiver. -/
def exitCode : Option Int → Int
  | none => -1
  | some c => c

/-- The result of one `cleanSwap()` call: the returned error (its message) and the
commands that were run, in order. -/
structure CleanResult where
  err : Option String
  cmds : List Cmd
deriving DecidableEq, Repr

/-- The function `cleanSwap` (daemon.go, lines 370-388) over a command runner. -/
def cleanSwap (run : Cmd → RunResult) : CleanResult :=
  let rOff := run cmdOff
  if rOff.failed then
    let ec := exitCode rOff.processState
    { err := some ("Can't disable swap using swapoff: swapoff exited with code " ++ toString ec)
      cmds := [cmdOff] }
  else
    let rOn := run cmdOn
    if rOn.failed then
      let ec := exitCode rOff.processState
      { err := some ("Can't enable swap back using swapon: swapon exited with code " ++ toString ec)
        cmds := [cmdOff, cmdOn] }
    else
      { err := none, cmds := [cmdOff, cmdOn] }

/-! ## Threshold policy -/

/-- Modelled from the spec: `mathutil.FromPerc` of the `ek` library, which is not part of
this repository; the spec gives `percentOf(swappiness, memTotal)`, the share
`swappiness/100` of `memTotal`. It is evaluated in `float64` the way the library does for
the non-negative arguments the loop passes, `(total / 100.0) * perc`: a rounded division
and a rounded product. -/
def fromPerc (perc total : ℚ) : ℚ := roundF64 (roundF64 (total / 100) * perc)

/-- The right-hand side of line 287:
`float64(mem.MemTotal) - mathutil.FromPerc(float64(swappiness), float64(mem.MemTotal))`,
with the two conversions and the subtraction rounded to `float64`. -/
def computeWatermark (memTotal : Nat) (swappiness : Int) : ℚ :=
  roundF64 (roundF64 (memTotal : ℚ)
    - fromPerc (roundF64 (swappiness : ℚ)) (roundF64 (memTotal : ℚ)))

/-- The conversion `uint64(x)` of a `float64`: truncation toward zero when the truncated
value is representable; otherwise Go leaves the result to the implementation, and `oob`
stands for whatever the platform answers. -/
def toUint64 (oob : ℚ → Nat) (x : ℚ) : Nat :=
  if -1 < x ∧ x < 2 ^ 64 then Int.toNat ⌊x⌋ else oob x

/-! ## Decision loop: `checkLoop` -/

/-- The structure `system.MemUsage`, restricted to the fields the loop reads (bytes, `uint64`). -/
structure MemUsage where
  MemTotal : Nat
  MemUsed : Nat
  SwapTotal : Nat
  SwapUsed : Nat
deriving DecidableEq, Repr

/-- What `checkLoop` is started with: its argument, the two configuration values it reads
before the loop, and the platform's out-of-range `float64` to `uint64` conversion. -/
structure Env where
  swappiness : Int
  maxWaitCfg : Int
  maxLA : ℚ
  oob : ℚ → Nat

/-- Line 275: `maxWait := time.Duration(knf.GetI(LIMITS_MAX_WAIT, 10)) * time.Minute`,
an `int64` multiplication. -/
def maxWaitOf (v : Int) : Int := wrapInt64 (v * Minute)

/-- The loop constant `maxWait` of an environment. -/
def maxWait (env : Env) : Int := maxWaitOf env.maxWaitCfg

/-- Modelled from the spec: the values of `limits:max-wait` that `validateConfig` accepts.
The two validator entries are in the source (lines 196-197,
`{LIMITS_MAX_WAIT, knfv.Greater, 1}` and `{LIMITS_MAX_WAIT, knfv.Less, 24 * 3600}`), the
validators `knfv.Greater` and `knfv.Less` themselves belong to the `ek` library, which is
not part of this repository; the spec gives the accepted range as `1 < value < 86400`. -/
def validMaxWait (v : Int) : Prop := 1 < v ∧ v < 24 * 3600

instance (v : Int) : Decidable (validMaxWait v) := by
  unfold validMaxWait; infer_instance

/-- The variables that live across iterations of the loop (lines 272-273). -/
structure LoopState where
  maxMem : ℚ
  lastCheck : Int
deriving DecidableEq, Repr

/-- The loop variables before the first tick: Go's zero values. -/
def LoopState.init : LoopState := ⟨0, 0⟩

/-- Everything one tick reads from outside: the memory probe (`none` is an error), the
load probe (`none` is an error, `some x` is `la.Min1`), the clock, the command runner. -/
structure TickInput where
  mem : Option MemUsage
  la : Option ℚ
  now : Int
  run : Cmd → RunResult

/-- The effect of one tick: the loop variables after it, and the `cleanSwap()` call it
made, if any. -/
structure TickResult where
  state : LoopState
  cleanCall : Option CleanResult

/-- Lines 286-288: the value of `maxMem` after the lazy initialisation. -/
def newMaxMem (env : Env) (st : LoopState) (mem : MemUsage) : ℚ :=
  if st.maxMem = 0 then computeWatermark mem.MemTotal env.swappiness else st.maxMem

/-- Lines 339-365: the cleaning attempt and what follows it. -/
def cleanStep (st : LoopState) (run : Cmd → RunResult) : TickResult :=
  let r := cleanSwap run
  match r.err with
  | some _ => ⟨st, some r⟩
  | none => ⟨{ st with lastCheck := 0 }, some r⟩

/-- One iteration of the loop body of `checkLoop` (lines 279-365). -/
def tick (env : Env) (st : LoopState) (inp : TickInput) : TickResult :=
  match inp.mem with
  | none => ⟨st, none⟩
  | some mem =>
    let st1 : LoopState := { st with maxMem := newMaxMem env st mem }
    if mem.SwapUsed = 0 then ⟨st1, none⟩
    else if (mem.SwapUsed + mem.MemUsed) % 2 ^ 64 > toUint64 env.oob st1.maxMem then ⟨st1, none⟩
    else
      match inp.la with
      | none => ⟨st1, none⟩
      | some la =>
        if la ≥ env.maxLA ∧ maxWait env ≠ Minute then
          if st1.lastCheck = 0 then ⟨{ st1 with lastCheck := inp.now }, none⟩
          else if inp.now - st1.lastCheck < maxWait env then ⟨st1, none⟩
          else cleanStep st1 inp.run
        else cleanStep st1 inp.run

/-- The loop variables after the first `k` ticks, started from `st`. -/
def loopFrom (env : Env) (st : LoopState) (inp : Nat → TickInput) : Nat → LoopState
  | 0 => st
  | k + 1 => (tick env (loopFrom env st inp k) (inp k)).state

/-- The function `checkLoop`: the loop variables after the first `k` ticks. -/
def checkLoop (env : Env) (inp : Nat → TickInput) (k : Nat) : LoopState :=
  loopFrom env LoopState.init inp k

/-- What the `k`-th tick (counted from 0) of `checkLoop` does. -/
def checkLoopTick (env : Env) (inp : Nat → TickInput) (k : Nat) : TickResult :=
  tick env (checkLoop env inp k) (inp k)

/-- The guard of line 301, `mem.SwapUsed+mem.MemUsed > uint64(maxMem)`, on the value
`maxMem` has after lines 286-288. -/
def headroomExceeded (env : Env) (st : LoopState) (mem : MemUsage) : Prop :=
  (mem.SwapUsed + mem.MemUsed) % 2 ^ 64 > toUint64 env.oob (newMaxMem env st mem)

instance (env : Env) (st : LoopState) (mem : MemUsage) :
    Decidable (headroomExceeded env st mem) := by
  unfold headroomExceeded; infer_instance

/-- Modelled from the spec: `isSafeToClean(memUsed, swapUsed, watermark)` of the Threshold
Policy, "true iff `memUsed + swapUsed <= watermark`", over exact numbers. -/
def isSafeToClean (memUsed swapUsed : Nat) (watermark : ℚ) : Prop :=
  (memUsed : ℚ) + (swapUsed : ℚ) ≤ watermark

/-! ## Concrete runners and inputs used to evaluate the definitions -/

/-- A runner on which `swapoff -a` cannot be launched and `swapon -a` would succeed. -/
def runOffNotLaunched : Cmd → RunResult :=
  fun c => if c = cmdOff then ⟨true, none⟩ else ⟨false, some 0⟩

/-- A runner on which `swapoff -a` exits with status 1. -/
def runOffExit1 : Cmd → RunResult :=
  fun c => if c = cmdOff then ⟨true, some 1⟩ else ⟨false, some 0⟩

/-- A runner on which `swapoff -a` succeeds and `swapon -a` exits with status 32. -/
def runOnExit32 : Cmd → RunResult :=
  fun c => if c = cmdOff then ⟨false, some 0⟩ else ⟨true, some 32⟩

/-- A runner on which both commands succeed. -/
def runOk : Cmd → RunResult :=
  fun _ => ⟨false, some 0⟩

/-- An environment: `vm.swappiness` 10, `limits:max-wait` 5, `limits:max-la` 2.0. -/
def envExample : Env := ⟨10, 5, 2, fun _ => 0⟩

/-- A clock reading, in the year 2025. -/
def t0 : Int := 63900000000 * Second

/-- A sample: 16 GB of memory with 4 GB used, 8 GB of swap with 1 GB used. -/
def memExample : MemUsage := ⟨16000000000, 4000000000, 8000000000, 1000000000⟩

/-- A sample with no swap in use. -/
def memNoSwap : MemUsage := ⟨16000000000, 4000000000, 8000000000, 0⟩

/-- A sample with 15 GB of 16 GB memory used and 1 GB of swap used. -/
def memFull : MemUsage := ⟨16000000000, 15000000000, 8000000000, 1000000000⟩

/-- The loop variables of a Deferring loop: watermark cached, deferral started at `t0`. -/
def stDeferring : LoopState := ⟨14400000000, t0⟩

/-- A tick input with the given sample, load and clock reading, on the runner `runOk`. -/
def inputOf (m : MemUsage) (la : ℚ) (now : Int) : TickInput :=
  ⟨some m, some la, now, runOk⟩

/-- A tick input whose load probe fails. -/
def inputLaError : TickInput := ⟨some memExample, none, t0 + Minute, runOk⟩

/-- A sample of a host reporting 32 GB of memory. -/
def memBigger : MemUsage := ⟨32000000000, 4000000000, 8000000000, 1000000000⟩

/-- The loop variables of an Idle loop whose watermark is cached. -/
def stIdle : LoopState := ⟨14400000000, 0⟩

/-- Ticks one minute apart from `t0` on, each with the sample `memExample` and a
one-minute load of 2.5. -/
def highLoadTrace (k : Nat) : TickInput :=
  inputOf memExample (5 / 2) (t0 + k * Minute)

/-- A first tick reporting 16 GB of memory, later ticks reporting 32 GB. -/
def growingTrace : Nat → TickInput
  | 0 => inputOf memExample (1 / 2) t0
  | k + 1 => inputOf memBigger (1 / 2) (t0 + (k + 1) * Minute)

/-- Ticks one minute apart: a high-load tick, then a low-load tick on which `swapoff -a`
exits with status 1, then high-load ticks. -/
def failedCleanTrace : Nat → TickInput
  | 0 => inputOf memExample (5 / 2) t0
  | 1 => ⟨some memExample, some (1 / 2), t0 + Minute, runOffExit1⟩
  | k + 2 => inputOf memExample (5 / 2) (t0 + (k + 2) * Minute)

/-- An environment: `vm.swappiness` 50, `limits:max-wait` 5, `limits:max-la` 2.0. -/
def envHalf : Env := ⟨50, 5, 2, fun _ => 0⟩

/-- An environment: `vm.swappiness` 100, `limits:max-wait` 5, `limits:max-la` 2.0. -/
def envFull : Env := ⟨100, 5, 2, fun _ => 0⟩

/-- A sample: 16,000,014,336 bytes of memory with 6,000,007,168 used and 2,000,000,000
bytes of swap used. -/
def memHalf : MemUsage := ⟨16000014336, 6000007168, 8000000000, 2000000000⟩

/-- A sample reporting 16,000,002,048 bytes of memory. -/
def memDrift : MemUsage := ⟨16000002048, 4000000000, 8000000000, 1000000000⟩

/-- Low-load ticks one minute apart on the sample `memHalf`. -/
def halfTrace (k : Nat) : TickInput :=
  inputOf memHalf (1 / 2) (t0 + k * Minute)

/-- Low-load ticks one minute apart: the first reports 16,000,000,000 bytes of memory,
the later ones 16,000,002,048. -/
def driftTrace : Nat → TickInput
  | 0 => inputOf memExample (1 / 2) t0
  | k + 1 => inputOf memDrift (1 / 2) (t0 + (k + 1) * Minute)

/-! ## binary64 rounding: error bounds and exact cases -/

theorem abs_roundHalfEven_sub_le (y : ℚ) : |(roundHalfEven y : ℚ) - y| ≤ 1 / 2 := by
  have h1 := Int.floor_le y
  have h2 := Int.lt_floor_add_one y
  unfold roundHalfEven
  split_ifs with a b c
  · rw [abs_le]; constructor <;> linarith
  · push_cast; rw [abs_le]; constructor <;> linarith
  · rw [abs_le]; constructor <;> linarith
  · push_cast; rw [abs_le]; constructor <;> linarith

theorem roundHalfEven_intCast (n : Int) : roundHalfEven (n : ℚ) = n := by
  unfold roundHalfEven
  simp

theorem roundHalfEven_eq_of_abs_lt (y : ℚ) (n : Int) (h : |y - n| < 1 / 2) :
    roundHalfEven y = n := by
  rw [abs_lt] at h
  have h1 := Int.floor_le y
  have h2 := Int.lt_floor_add_one y
  unfold roundHalfEven
  split_ifs with a b c
  · have : ⌊y⌋ < n + 1 := by exact_mod_cast (show (⌊y⌋ : ℚ) < (n : ℚ) + 1 by linarith)
    have : n < ⌊y⌋ + 1 := by exact_mod_cast (show (n : ℚ) < (⌊y⌋ : ℚ) + 1 by linarith)
    omega
  · have : ⌊y⌋ < n := by exact_mod_cast (show (⌊y⌋ : ℚ) < (n : ℚ) by linarith)
    have : n < ⌊y⌋ + 2 := by exact_mod_cast (show (n : ℚ) < (⌊y⌋ : ℚ) + 2 by linarith)
    omega
  · exfalso
    have e : y - ⌊y⌋ = 1 / 2 := le_antisymm (not_lt.mp b) (not_lt.mp a)
    have : ⌊y⌋ < n := by exact_mod_cast (show (⌊y⌋ : ℚ) < (n : ℚ) by linarith)
    have : n < ⌊y⌋ + 1 := by exact_mod_cast (show (n : ℚ) < (⌊y⌋ : ℚ) + 1 by linarith)
    omega
  · exfalso
    have e : y - ⌊y⌋ = 1 / 2 := le_antisymm (not_lt.mp b) (not_lt.mp a)
    have : ⌊y⌋ < n := by exact_mod_cast (show (⌊y⌋ : ℚ) < (n : ℚ) by linarith)
    have : n < ⌊y⌋ + 1 := by exact_mod_cast (show (n : ℚ) < (⌊y⌋ : ℚ) + 1 by linarith)
    omega

theorem ulp_pos (x : ℚ) : 0 < ulp x := by
  unfold ulp
  positivity

theorem roundF64_zero : roundF64 0 = 0 := by simp [roundF64]

theorem abs_roundF64_sub_le (x : ℚ) : |roundF64 x - x| ≤ ulp x / 2 := by
  unfold roundF64
  split_ifs with h
  · subst h
    simp only [sub_zero, abs_zero]
    exact le_of_lt (half_pos (ulp_pos 0))
  · have hu := ulp_pos x
    have key := abs_roundHalfEven_sub_le (x / ulp x)
    have e : ulp x * (roundHalfEven (x / ulp x) : ℚ) - x
        = ulp x * ((roundHalfEven (x / ulp x) : ℚ) - x / ulp x) := by
      field_simp
      ring
    rw [e, abs_mul, abs_of_pos hu]
    calc ulp x * |(roundHalfEven (x / ulp x) : ℚ) - x / ulp x|
        ≤ ulp x * (1 / 2) := mul_le_mul_of_nonneg_left key (le_of_lt hu)
      _ = ulp x / 2 := by ring

theorem binade_le_of_lt (x : ℚ) (k : Int) (hx : x ≠ 0) (hk : -1022 < k) (h : |x| < 2 ^ k) :
    binade x ≤ k - 1 := by
  unfold binade
  have hpos : 0 < |x| := abs_pos.mpr hx
  have : Int.log 2 |x| < k := by
    rw [← Int.lt_zpow_iff_log_lt (by norm_num) hpos]
    exact_mod_cast h
  apply max_le <;> omega

theorem abs_roundF64_sub_le_of_lt (x : ℚ) (k : Int) (hk : -1022 < k) (h : |x| < 2 ^ k) :
    |roundF64 x - x| ≤ 2 ^ (k - 54) := by
  by_cases hx : x = 0
  · subst hx
    rw [roundF64_zero]
    simp only [sub_zero, abs_zero]
    positivity
  · have h1 := abs_roundF64_sub_le x
    have h2 := binade_le_of_lt x k hx hk h
    have h3 : ulp x ≤ 2 ^ (k - 1 - 52) := by
      unfold ulp
      exact zpow_le_zpow_right₀ (by norm_num) (by omega)
    have h4 : (2 : ℚ) ^ (k - 1 - 52) = 2 * 2 ^ (k - 54) := by
      rw [show k - 1 - 52 = 1 + (k - 54) by ring, zpow_add₀ (by norm_num), zpow_one]
    linarith

theorem abs_roundF64_sub_le_rel (x : ℚ) (h : 2 ^ (-1022 : Int) ≤ |x|) :
    |roundF64 x - x| ≤ |x| * 2 ^ (-53 : Int) := by
  have hpos : 0 < |x| := lt_of_lt_of_le (by positivity) h
  have h1 := abs_roundF64_sub_le x
  have hlog : -1022 ≤ Int.log 2 |x| := by
    rw [← Int.zpow_le_iff_le_log (by norm_num) hpos]
    exact_mod_cast h
  have hb : binade x = Int.log 2 |x| := by
    unfold binade
    exact max_eq_left hlog
  have h2 : (2 : ℚ) ^ (Int.log 2 |x|) ≤ |x| := by
    have := Int.zpow_log_le_self (b := 2) (r := |x|) (by norm_num) hpos
    exact_mod_cast this
  have h3 : ulp x = 2 ^ (Int.log 2 |x|) * 2 ^ (-52 : Int) := by
    unfold ulp
    rw [hb, sub_eq_add_neg, zpow_add₀ (by norm_num)]
  have h4 : (2 : ℚ) ^ (-52 : Int) = 2 * 2 ^ (-53 : Int) := by norm_num
  rw [h3, h4] at h1
  have h5 : (0 : ℚ) < 2 ^ (-53 : Int) := by positivity
  have h6 : (2 : ℚ) ^ (Int.log 2 |x|) * 2 ^ (-53 : Int) ≤ |x| * 2 ^ (-53 : Int) :=
    mul_le_mul_of_nonneg_right h2 (le_of_lt h5)
  have h7 : (2 : ℚ) ^ (Int.log 2 |x|) * (2 * 2 ^ (-53 : Int)) / 2
      = 2 ^ (Int.log 2 |x|) * 2 ^ (-53 : Int) := by ring
  rw [h7] at h1
  exact le_trans h1 h6

theorem binade_eq_of (x : ℚ) (e : Int) (he : -1022 ≤ e) (h1 : 2 ^ e ≤ |x|)
    (h2 : |x| < 2 ^ (e + 1)) : binade x = e := by
  have hpos : 0 < |x| := lt_of_lt_of_le (by positivity) h1
  have a : e ≤ Int.log 2 |x| := by
    rw [← Int.zpow_le_iff_le_log (by norm_num) hpos]
    exact_mod_cast h1
  have b : Int.log 2 |x| < e + 1 := by
    rw [← Int.lt_zpow_iff_log_lt (by norm_num) hpos]
    exact_mod_cast h2
  unfold binade
  rw [max_eq_left (by omega)]
  omega

/-- Evaluation of `roundF64` once the binade and the nearest multiple are known. -/
theorem roundF64_eq_of (x : ℚ) (e n : Int) (he : -1022 ≤ e) (h1 : 2 ^ e ≤ |x|)
    (h2 : |x| < 2 ^ (e + 1)) (hn : |x / 2 ^ (e - 52) - n| < 1 / 2) :
    roundF64 x = 2 ^ (e - 52) * (n : ℚ) := by
  have hpos : 0 < |x| := lt_of_lt_of_le (by positivity) h1
  have hx : x ≠ 0 := abs_pos.mp hpos
  have hu : ulp x = 2 ^ (e - 52) := by
    unfold ulp
    rw [binade_eq_of x e he h1 h2]
  unfold roundF64
  rw [if_neg hx, hu, roundHalfEven_eq_of_abs_lt _ n hn]

theorem roundF64_intCast (n : Int) (h : |n| < 2 ^ 53) : roundF64 (n : ℚ) = n := by
  by_cases hn : n = 0
  · subst hn
    simp [roundF64_zero]
  · have hx : (n : ℚ) ≠ 0 := by exact_mod_cast hn
    have habs : (1 : ℚ) ≤ |(n : ℚ)| := by
      have : (1 : Int) ≤ |n| := Int.one_le_abs hn
      exact_mod_cast this
    have hlt0 : |(n : ℚ)| < 2 ^ (53 : Nat) := by exact_mod_cast h
    have hlt : |(n : ℚ)| < 2 ^ (53 : Int) := by
      rw [show (53 : Int) = ((53 : Nat) : Int) by rfl, zpow_natCast]
      exact hlt0
    have hb1 := binade_le_of_lt (n : ℚ) 53 hx (by norm_num) hlt
    have hb0 : 0 ≤ binade (n : ℚ) := by
      unfold binade
      apply le_max_of_le_left
      rw [← Int.zpow_le_iff_le_log (by norm_num) (lt_of_lt_of_le one_pos habs)]
      simpa using habs
    obtain ⟨j, hj⟩ : ∃ j : Nat, binade (n : ℚ) - 52 = -(j : Int) :=
      ⟨(52 - binade (n : ℚ)).toNat, by omega⟩
    have hu : ulp (n : ℚ) = ((2 : ℚ) ^ j)⁻¹ := by
      unfold ulp
      rw [hj, zpow_neg, zpow_natCast]
    have hdiv : (n : ℚ) / ulp (n : ℚ) = ((n * 2 ^ j : Int) : ℚ) := by
      rw [hu]
      push_cast
      field_simp
    unfold roundF64
    rw [if_neg hx, hdiv, roundHalfEven_intCast, hu]
    push_cast
    field_simp

theorem roundF64_natCast (n : Nat) (h : n < 2 ^ 53) : roundF64 (n : ℚ) = n := by
  have := roundF64_intCast (n : Int) (by rw [abs_of_nonneg (by positivity)]; exact_mod_cast h)
  simpa using this

/-- For `x` at least `1/1024` the rounding error is below a thousandth of `x`. -/
theorem roundF64_rel (x : ℚ) (hx : 1 / 1024 ≤ x) :
    (999 / 1000) * x ≤ roundF64 x ∧ roundF64 x ≤ (1001 / 1000) * x := by
  have hpos : 0 < x := lt_of_lt_of_le (by norm_num) hx
  have habs : |x| = x := abs_of_pos hpos
  have h1 : (2 : ℚ) ^ (-1022 : Int) ≤ |x| := by
    rw [habs]
    refine le_trans ?_ hx
    have : (2 : ℚ) ^ (-1022 : Int) ≤ 2 ^ (-10 : Int) :=
      zpow_le_zpow_right₀ (by norm_num) (by norm_num)
    refine le_trans this ?_
    norm_num
  have h2 := abs_roundF64_sub_le_rel x h1
  rw [habs] at h2
  have h3 : (2 : ℚ) ^ (-53 : Int) ≤ 1 / 1000 := by
    have : (2 : ℚ) ^ (-53 : Int) ≤ 2 ^ (-10 : Int) :=
      zpow_le_zpow_right₀ (by norm_num) (by norm_num)
    refine le_trans this ?_
    norm_num
  have h4 : x * 2 ^ (-53 : Int) ≤ x * (1 / 1000) :=
    mul_le_mul_of_nonneg_left h3 (le_of_lt hpos)
  have h5 := le_trans h2 h4
  rw [abs_le] at h5
  constructor <;> linarith [h5.1, h5.2]

/-! ## `cleanSwap` -/

theorem cleanSwap_of_off_failed (run : Cmd → RunResult) (h : (run cmdOff).failed = true) :
    cleanSwap run =
      { err := some ("Can't disable swap using swapoff: swapoff exited with code "
          ++ toString (exitCode (run cmdOff).processState))
        cmds := [cmdOff] } := by
  simp [cleanSwap, h]

theorem cleanSwap_of_on_failed (run : Cmd → RunResult) (h : (run cmdOff).failed = false)
    (h2 : (run cmdOn).failed = true) :
    cleanSwap run =
      { err := some ("Can't enable swap back using swapon: swapon exited with code "
          ++ toString (exitCode (run cmdOff).processState))
        cmds := [cmdOff, cmdOn] } := by
  simp [cleanSwap, h, h2]

theorem cleanSwap_of_ok (run : Cmd → RunResult) (h : (run cmdOff).failed = false)
    (h2 : (run cmdOn).failed = false) :
    cleanSwap run = { err := none, cmds := [cmdOff, cmdOn] } := by
  simp [cleanSwap, h, h2]

theorem cmdOn_ne_cmdOff : cmdOn ≠ cmdOff := by decide

/-- C6. For every command runner: if `swapoff -a` fails (its `Run` returns an error,
whether the process exited non-zero or was never started), `cleanSwap` returns the error
naming the swapoff step with the exit code of swapoff and `swapon -a` is not run; `swapon -a`
is run exactly when swapoff succeeded; and `cleanSwap` returns no error exactly when both
commands succeeded. -/
theorem cleanSwap_disable_failure_aborts (run : Cmd → RunResult) :
    ((run cmdOff).failed = true →
        (cleanSwap run).err = some ("Can't disable swap using swapoff: swapoff exited with code "
            ++ toString (exitCode (run cmdOff).processState))
          ∧ cmdOn ∉ (cleanSwap run).cmds)
      ∧ (cmdOn ∈ (cleanSwap run).cmds ↔ (run cmdOff).failed = false)
      ∧ ((cleanSwap run).err = none ↔
          (run cmdOff).failed = false ∧ (run cmdOn).failed = false) := by
  cases h : (run cmdOff).failed
  · cases h2 : (run cmdOn).failed
    · simp [cleanSwap_of_ok run h h2]
    · simp [cleanSwap_of_on_failed run h h2]
  · simp [cleanSwap_of_off_failed run h, cmdOn_ne_cmdOff]

/-- C6, evaluated on a runner whose `swapoff -a` cannot be launched: the error carries
exit code `-1` and `swapon -a` is not run. -/
theorem cleanSwap_disable_failure_aborts_witness :
    (cleanSwap runOffNotLaunched).err
        = some "Can't disable swap using swapoff: swapoff exited with code -1"
      ∧ cmdOn ∉ (cleanSwap runOffNotLaunched).cmds :=
  (cleanSwap_disable_failure_aborts runOffNotLaunched).1 (by decide)

/-- C10. On the runner where `swapoff -a` succeeds and `swapon -a` exits with status 32,
the error returned by `cleanSwap` names the swapon step but reports exit code 0, the exit
code of swapoff, not the 32 swapon exited with. -/
theorem cleanSwap_enable_failure_reports_swapoff_code :
    (runOnExit32 cmdOff).failed = false
      ∧ runOnExit32 cmdOn = ⟨true, some 32⟩
      ∧ (cleanSwap runOnExit32).err
          = some "Can't enable swap back using swapon: swapon exited with code 0"
      ∧ (cleanSwap runOnExit32).err
          ≠ some "Can't enable swap back using swapon: swapon exited with code 32" := by
  decide

/-! ## The branches of one tick -/

theorem tick_of_mem_error (env : Env) (st : LoopState) (inp : TickInput)
    (hm : inp.mem = none) : tick env st inp = ⟨st, none⟩ := by
  simp [tick, hm]

theorem tick_of_no_swap (env : Env) (st : LoopState) (inp : TickInput) (m : MemUsage)
    (hm : inp.mem = some m) (h0 : m.SwapUsed = 0) :
    tick env st inp = ⟨{ st with maxMem := newMaxMem env st m }, none⟩ := by
  simp [tick, hm, h0]

theorem tick_of_no_headroom (env : Env) (st : LoopState) (inp : TickInput) (m : MemUsage)
    (hm : inp.mem = some m) (hg : headroomExceeded env st m) :
    tick env st inp = ⟨{ st with maxMem := newMaxMem env st m }, none⟩ := by
  unfold headroomExceeded at hg
  simp only [tick, hm]
  split_ifs <;> rfl

theorem tick_of_la_error (env : Env) (st : LoopState) (inp : TickInput) (m : MemUsage)
    (hm : inp.mem = some m) (hl : inp.la = none) :
    tick env st inp = ⟨{ st with maxMem := newMaxMem env st m }, none⟩ := by
  simp only [tick, hm, hl]
  split_ifs <;> rfl

theorem tick_of_delay_start (env : Env) (st : LoopState) (inp : TickInput) (m : MemUsage)
    (la : ℚ) (hm : inp.mem = some m) (hl : inp.la = some la) (h0 : m.SwapUsed ≠ 0)
    (hg : ¬ headroomExceeded env st m) (hla : env.maxLA ≤ la) (hw : maxWait env ≠ Minute)
    (hz : st.lastCheck = 0) :
    tick env st inp = ⟨⟨newMaxMem env st m, inp.now⟩, none⟩ := by
  unfold headroomExceeded at hg
  simp only [tick, hm, hl]
  rw [if_neg h0, if_neg hg, if_pos ⟨hla, hw⟩, if_pos hz]

theorem tick_of_waiting (env : Env) (st : LoopState) (inp : TickInput) (m : MemUsage)
    (la : ℚ) (hm : inp.mem = some m) (hl : inp.la = some la) (h0 : m.SwapUsed ≠ 0)
    (hg : ¬ headroomExceeded env st m) (hla : env.maxLA ≤ la) (hw : maxWait env ≠ Minute)
    (hz : st.lastCheck ≠ 0) (hlt : inp.now - st.lastCheck < maxWait env) :
    tick env st inp = ⟨{ st with maxMem := newMaxMem env st m }, none⟩ := by
  unfold headroomExceeded at hg
  simp only [tick, hm, hl]
  rw [if_neg h0, if_neg hg, if_pos ⟨hla, hw⟩, if_neg hz, if_pos hlt]

theorem tick_of_go (env : Env) (st : LoopState) (inp : TickInput) (m : MemUsage)
    (la : ℚ) (hm : inp.mem = some m) (hl : inp.la = some la) (h0 : m.SwapUsed ≠ 0)
    (hg : ¬ headroomExceeded env st m)
    (hgo : la < env.maxLA ∨ maxWait env = Minute
      ∨ (st.lastCheck ≠ 0 ∧ maxWait env ≤ inp.now - st.lastCheck)) :
    tick env st inp = cleanStep { st with maxMem := newMaxMem env st m } inp.run := by
  unfold headroomExceeded at hg
  simp only [tick, hm, hl]
  rw [if_neg h0, if_neg hg]
  rcases hgo with h | h | ⟨h1, h2⟩
  · rw [if_neg (fun hc => absurd hc.1 (not_le.mpr h))]
  · rw [if_neg (fun hc => hc.2 h)]
  · by_cases hc : la ≥ env.maxLA ∧ maxWait env ≠ Minute
    · rw [if_pos hc, if_neg h1, if_neg (not_lt.mpr h2)]
    · rw [if_neg hc]

theorem cleanStep_cleanCall (st : LoopState) (run : Cmd → RunResult) :
    (cleanStep st run).cleanCall = some (cleanSwap run) := by
  cases h : (cleanSwap run).err <;> simp [cleanStep, h]

theorem cleanStep_maxMem (st : LoopState) (run : Cmd → RunResult) :
    (cleanStep st run).state.maxMem = st.maxMem := by
  cases h : (cleanSwap run).err <;> simp [cleanStep, h]

theorem cleanStep_of_error (st : LoopState) (run : Cmd → RunResult) (e : String)
    (h : (cleanSwap run).err = some e) : (cleanStep st run).state = st := by
  simp [cleanStep, h]

theorem cleanStep_of_success (st : LoopState) (run : Cmd → RunResult)
    (h : (cleanSwap run).err = none) :
    (cleanStep st run).state = { st with lastCheck := 0 } := by
  simp [cleanStep, h]

/-! ## The headroom check -/

theorem computeWatermark_zero_total (s : Int) : computeWatermark 0 s = 0 := by
  simp [computeWatermark, fromPerc, roundF64_zero]

theorem roundF64_swappiness (s : Int) (hs : 0 ≤ s ∧ s ≤ 100) : roundF64 (s : ℚ) = s := by
  apply roundF64_intCast
  rw [abs_of_nonneg hs.1]
  omega

/-- For a total below `2^45` bytes and a swappiness in 0..100 the float64 watermark is
within 7/1000 of `memTotal - swappiness/100 * memTotal`. -/
theorem computeWatermark_close (T : Nat) (s : Int) (hs : 0 ≤ s ∧ s ≤ 100) (hT : T < 2 ^ 45) :
    |computeWatermark T s - ((T : ℚ) - (s : ℚ) / 100 * (T : ℚ))| ≤ 7 / 1000 := by
  have hs0 : (0 : ℚ) ≤ (s : ℚ) := by exact_mod_cast hs.1
  have hs1 : (s : ℚ) ≤ 100 := by exact_mod_cast hs.2
  have hT0 : (0 : ℚ) ≤ (T : ℚ) := Nat.cast_nonneg T
  have hT1 : (T : ℚ) ≤ 2 ^ 45 - 1 := by
    have : T + 1 ≤ 2 ^ 45 := hT
    have : ((T + 1 : Nat) : ℚ) ≤ ((2 ^ 45 : Nat) : ℚ) := by exact_mod_cast this
    push_cast at this
    linarith
  unfold computeWatermark fromPerc
  rw [roundF64_natCast T (by omega), roundF64_swappiness s hs]
  -- the quotient
  have hB := abs_roundF64_sub_le_of_lt ((T : ℚ) / 100) 39 (by norm_num)
    (by rw [abs_of_nonneg (by positivity)]; norm_num; linarith)
  generalize roundF64 ((T : ℚ) / 100) = B at hB ⊢
  rw [abs_le] at hB
  have e15 : (2 : ℚ) ^ ((39 : Int) - 54) = 1 / 32768 := by norm_num
  rw [e15] at hB
  -- the product
  have hBs1 : B * (s : ℚ) ≤ (T : ℚ) / 100 * (s : ℚ) + 1 / 32768 * 100 := by nlinarith [hB.2]
  have hBs0 : (T : ℚ) / 100 * (s : ℚ) - 1 / 32768 * 100 ≤ B * (s : ℚ) := by nlinarith [hB.1]
  have hTs : (T : ℚ) / 100 * (s : ℚ) ≤ (T : ℚ) := by nlinarith
  have hTs0 : 0 ≤ (T : ℚ) / 100 * (s : ℚ) := by positivity
  have hC := abs_roundF64_sub_le_of_lt (B * (s : ℚ)) 45 (by norm_num)
    (by rw [abs_lt]; constructor <;> norm_num <;> linarith)
  generalize roundF64 (B * (s : ℚ)) = C at hC ⊢
  rw [abs_le] at hC
  have e9 : (2 : ℚ) ^ ((45 : Int) - 54) = 1 / 512 := by norm_num
  rw [e9] at hC
  -- the difference
  have hD := abs_roundF64_sub_le_of_lt ((T : ℚ) - C) 45 (by norm_num)
    (by rw [abs_lt]; constructor <;> norm_num <;> linarith [hC.1, hC.2])
  generalize roundF64 ((T : ℚ) - C) = D at hD ⊢
  rw [abs_le] at hD
  rw [e9] at hD
  have e : (s : ℚ) / 100 * (T : ℚ) = (T : ℚ) / 100 * (s : ℚ) := by ring
  rw [abs_le, e]
  constructor <;> linarith [hC.1, hC.2, hD.1, hD.2]

/-- For a non-zero total and a swappiness in 0..99 the float64 watermark is positive. -/
theorem computeWatermark_pos (T : Nat) (s : Int) (hs : 0 ≤ s ∧ s < 100) (hT : T ≠ 0) :
    0 < computeWatermark T s := by
  have hs0 : (0 : ℚ) ≤ (s : ℚ) := by exact_mod_cast hs.1
  have hs1 : (s : ℚ) ≤ 99 := by
    have : s ≤ 99 := by omega
    exact_mod_cast this
  have hT1 : (1 : ℚ) ≤ (T : ℚ) := by
    have : 1 ≤ T := Nat.one_le_iff_ne_zero.mpr hT
    exact_mod_cast this
  unfold computeWatermark fromPerc
  rw [roundF64_swappiness s ⟨hs.1, by omega⟩]
  have hA := roundF64_rel (T : ℚ) (by linarith)
  generalize roundF64 (T : ℚ) = A at hA ⊢
  have hA1 : (999 / 1000 : ℚ) ≤ A := by linarith [hA.1]
  have hB := roundF64_rel (A / 100) (by linarith)
  generalize roundF64 (A / 100) = B at hB ⊢
  have hB0 : 0 ≤ B := by linarith [hB.1]
  have hC : roundF64 (B * (s : ℚ)) ≤ (1001 / 1000) * (B * (s : ℚ)) := by
    by_cases hz : B * (s : ℚ) < 1 / 1024
    · -- a product this small is far below `A`; bound its rounding by the absolute error
      have hk := abs_roundF64_sub_le_of_lt (B * (s : ℚ)) 0 (by norm_num)
        (by rw [abs_of_nonneg (mul_nonneg hB0 hs0)]; norm_num; linarith)
      rw [abs_le] at hk
      by_cases hzero : B * (s : ℚ) = 0
      · rw [hzero, roundF64_zero]; norm_num
      · exfalso
        -- `B ≥ 0.00998` and `s ≥ 1` make the product at least `0.00998`
        have hs2 : (1 : ℚ) ≤ (s : ℚ) := by
          have hsne : s ≠ 0 := by
            intro h0
            apply hzero
            rw [h0]; simp
          have : 1 ≤ s := by omega
          exact_mod_cast this
        nlinarith [hB.1]
    · exact (roundF64_rel _ (not_lt.mp hz)).2
  generalize roundF64 (B * (s : ℚ)) = C at hC ⊢
  have hC1 : C ≤ (1001 / 1000) * ((1001 / 1000) * (A / 100) * 99) := by
    have : B * (s : ℚ) ≤ (1001 / 1000) * (A / 100) * 99 := by nlinarith [hB.2]
    linarith
  have hx : (1 / 1024 : ℚ) ≤ A - C := by linarith
  have hD := roundF64_rel (A - C) hx
  linarith [hD.1]

theorem computeWatermark_bounds (T : Nat) (s : Int) (hs : 0 ≤ s ∧ s ≤ 100)
    (hT : T < 2 ^ 45) :
    -(7 / 1000) ≤ computeWatermark T s ∧ computeWatermark T s ≤ (T : ℚ) + 7 / 1000 := by
  have hs0 : (0 : ℚ) ≤ (s : ℚ) := by exact_mod_cast hs.1
  have hs1 : (s : ℚ) ≤ 100 := by exact_mod_cast hs.2
  have hT0 : (0 : ℚ) ≤ (T : ℚ) := Nat.cast_nonneg T
  have hc := computeWatermark_close T s hs hT
  rw [abs_le] at hc
  have h1 : (s : ℚ) / 100 * (T : ℚ) ≤ (T : ℚ) := by nlinarith
  have h2 : 0 ≤ (s : ℚ) / 100 * (T : ℚ) := by positivity
  constructor <;> linarith [hc.1, hc.2]

theorem toUint64_of_inRange (oob : ℚ → Nat) (x : ℚ) (h0 : -1 < x) (h1 : x < 2 ^ 64) :
    toUint64 oob x = Int.toNat ⌊x⌋ := by
  unfold toUint64
  rw [if_pos ⟨h0, h1⟩]

theorem not_headroomExceeded_of_safe (env : Env) (st : LoopState) (m : MemUsage)
    (hs : isSafeToClean m.MemUsed m.SwapUsed (newMaxMem env st m))
    (hW : newMaxMem env st m < 2 ^ 64) : ¬ headroomExceeded env st m := by
  unfold isSafeToClean at hs
  unfold headroomExceeded
  have hnn : (0 : ℚ) ≤ (m.MemUsed : ℚ) + (m.SwapUsed : ℚ) := by positivity
  rw [toUint64_of_inRange env.oob _ (by linarith) hW]
  have hfl : ((m.SwapUsed + m.MemUsed : Nat) : Int) ≤ ⌊newMaxMem env st m⌋ := by
    rw [Int.le_floor]
    push_cast
    linarith
  have hmod : (m.SwapUsed + m.MemUsed) % 2 ^ 64 ≤ m.SwapUsed + m.MemUsed := Nat.mod_le _ _
  omega

theorem headroomExceeded_of_gt (env : Env) (st : LoopState) (m : MemUsage)
    (h0 : 0 ≤ newMaxMem env st m) (hW : newMaxMem env st m < 2 ^ 64)
    (hsum : m.MemUsed + m.SwapUsed < 2 ^ 64)
    (hgt : newMaxMem env st m < (m.MemUsed : ℚ) + (m.SwapUsed : ℚ)) :
    headroomExceeded env st m := by
  unfold headroomExceeded
  rw [toUint64_of_inRange env.oob _ (by linarith) hW]
  have hfl : ⌊newMaxMem env st m⌋ < ((m.SwapUsed + m.MemUsed : Nat) : Int) := by
    rw [Int.floor_lt]
    push_cast
    linarith
  have hmod : (m.SwapUsed + m.MemUsed) % 2 ^ 64 = m.SwapUsed + m.MemUsed :=
    Nat.mod_eq_of_lt (by omega)
  have hfl0 : 0 ≤ ⌊newMaxMem env st m⌋ := Int.floor_nonneg.mpr h0
  omega

theorem headroomExceeded_of_gt_of_swap (env : Env) (st : LoopState) (m : MemUsage)
    (hsw : m.SwapUsed ≠ 0)
    (h0 : -1 < newMaxMem env st m) (hW : newMaxMem env st m < 2 ^ 64)
    (hsum : m.MemUsed + m.SwapUsed < 2 ^ 64)
    (hgt : newMaxMem env st m < (m.MemUsed : ℚ) + (m.SwapUsed : ℚ)) :
    headroomExceeded env st m := by
  unfold headroomExceeded
  rw [toUint64_of_inRange env.oob _ h0 hW]
  have hfl : ⌊newMaxMem env st m⌋ < ((m.SwapUsed + m.MemUsed : Nat) : Int) := by
    rw [Int.floor_lt]
    push_cast
    linarith
  have hmod : (m.SwapUsed + m.MemUsed) % 2 ^ 64 = m.SwapUsed + m.MemUsed :=
    Nat.mod_eq_of_lt (by omega)
  omega

/-! ## Evaluation of the examples -/

theorem maxWait_envExample : maxWait envExample = 5 * Minute := by decide

theorem maxWait_envExample_ne : maxWait envExample ≠ Minute := by decide

theorem t0_ne_zero : t0 ≠ 0 := by decide

theorem newMaxMem_init (env : Env) (m : MemUsage) :
    newMaxMem env LoopState.init m = computeWatermark m.MemTotal env.swappiness := by
  simp [newMaxMem, LoopState.init]

theorem newMaxMem_of_zero (env : Env) (st : LoopState) (m : MemUsage)
    (h : st.maxMem = 0) :
    newMaxMem env st m = computeWatermark m.MemTotal env.swappiness := by
  simp [newMaxMem, h]

theorem newMaxMem_of_ne_zero (env : Env) (st : LoopState) (m : MemUsage)
    (h : st.maxMem ≠ 0) : newMaxMem env st m = st.maxMem := by
  simp [newMaxMem, h]

theorem computeWatermark_example : computeWatermark 16000000000 10 = 14400000000 := by
  unfold computeWatermark fromPerc
  have a : roundF64 ((16000000000 : Nat) : ℚ) = 16000000000 := by
    rw [roundF64_natCast _ (by norm_num)]; norm_num
  have s : roundF64 ((10 : Int) : ℚ) = 10 := by
    rw [roundF64_intCast _ (by norm_num)]; norm_num
  have b : roundF64 ((16000000000 : ℚ) / 100) = 160000000 := by
    have := roundF64_intCast 160000000 (by norm_num)
    norm_num at this ⊢
    exact this
  have c : roundF64 ((160000000 : ℚ) * 10) = 1600000000 := by
    have := roundF64_intCast 1600000000 (by norm_num)
    norm_num at this ⊢
    exact this
  have d : roundF64 ((16000000000 : ℚ) - 1600000000) = 14400000000 := by
    have := roundF64_intCast 14400000000 (by norm_num)
    norm_num at this ⊢
    exact this
  rw [a, s, b, c, d]

theorem computeWatermark_half : computeWatermark 16000014336 50 = 8388615516192767 / 1048576 := by
  unfold computeWatermark fromPerc
  have a : roundF64 ((16000014336 : Nat) : ℚ) = 16000014336 := by
    rw [roundF64_natCast _ (by norm_num)]; norm_num
  have s : roundF64 ((50 : Int) : ℚ) = 50 := by
    rw [roundF64_intCast _ (by norm_num)]; norm_num
  have b : roundF64 ((16000014336 : ℚ) / 100) = 1342178482590843 / 8388608 := by
    rw [roundF64_eq_of _ 27 5368713930363372 (by norm_num)
      (by rw [abs_of_pos (by norm_num)]; norm_num)
      (by rw [abs_of_pos (by norm_num)]; norm_num)
      (by rw [abs_lt]; constructor <;> norm_num)]
    norm_num
  have c : roundF64 ((1342178482590843 / 8388608 : ℚ) * 50) = 8388615516192769 / 1048576 := by
    rw [roundF64_eq_of _ 32 8388615516192769 (by norm_num)
      (by rw [abs_of_pos (by norm_num)]; norm_num)
      (by rw [abs_of_pos (by norm_num)]; norm_num)
      (by rw [abs_lt]; constructor <;> norm_num)]
    norm_num
  have d : roundF64 ((16000014336 : ℚ) - 8388615516192769 / 1048576)
      = 8388615516192767 / 1048576 := by
    rw [roundF64_eq_of _ 32 8388615516192767 (by norm_num)
      (by rw [abs_of_pos (by norm_num)]; norm_num)
      (by rw [abs_of_pos (by norm_num)]; norm_num)
      (by rw [abs_lt]; constructor <;> norm_num)]
    norm_num
  rw [a, s, b, c, d]

theorem computeWatermark_full_first : computeWatermark 16000000000 100 = 0 := by
  unfold computeWatermark fromPerc
  have a : roundF64 ((16000000000 : Nat) : ℚ) = 16000000000 := by
    rw [roundF64_natCast _ (by norm_num)]; norm_num
  have s : roundF64 ((100 : Int) : ℚ) = 100 := by
    rw [roundF64_intCast _ (by norm_num)]; norm_num
  have b : roundF64 ((16000000000 : ℚ) / 100) = 160000000 := by
    have := roundF64_intCast 160000000 (by norm_num)
    norm_num at this ⊢
    exact this
  have c : roundF64 ((160000000 : ℚ) * 100) = 16000000000 := by
    have := roundF64_intCast 16000000000 (by norm_num)
    norm_num at this ⊢
    exact this
  rw [a, s, b, c, sub_self, roundF64_zero]

theorem computeWatermark_full_second : computeWatermark 16000002048 100 = 1 / 524288 := by
  unfold computeWatermark fromPerc
  have a : roundF64 ((16000002048 : Nat) : ℚ) = 16000002048 := by
    rw [roundF64_natCast _ (by norm_num)]; norm_num
  have s : roundF64 ((100 : Int) : ℚ) = 100 := by
    rw [roundF64_intCast _ (by norm_num)]; norm_num
  have b : roundF64 ((16000002048 : ℚ) / 100) = 5368709807194767 / 33554432 := by
    rw [roundF64_eq_of _ 27 5368709807194767 (by norm_num)
      (by rw [abs_of_pos (by norm_num)]; norm_num)
      (by rw [abs_of_pos (by norm_num)]; norm_num)
      (by rw [abs_lt]; constructor <;> norm_num)]
    norm_num
  have c : roundF64 ((5368709807194767 / 33554432 : ℚ) * 100) = 8388609073741823 / 524288 := by
    rw [roundF64_eq_of _ 33 8388609073741823 (by norm_num)
      (by rw [abs_of_pos (by norm_num)]; norm_num)
      (by rw [abs_of_pos (by norm_num)]; norm_num)
      (by rw [abs_lt]; constructor <;> norm_num)]
    norm_num
  have d : roundF64 ((16000002048 : ℚ) - 8388609073741823 / 524288) = 1 / 524288 := by
    rw [roundF64_eq_of _ (-19) 4503599627370496 (by norm_num)
      (by rw [abs_of_pos (by norm_num)]; norm_num)
      (by rw [abs_of_pos (by norm_num)]; norm_num)
      (by rw [abs_lt]; constructor <;> norm_num)]
    norm_num
  rw [a, s, b, c, d]

theorem newMaxMem_stDeferring (env : Env) (m : MemUsage) :
    newMaxMem env stDeferring m = 14400000000 := by
  rw [newMaxMem_of_ne_zero]
  · rfl
  · norm_num [stDeferring]

/-! ## One tick: go, no-go, and what a skipped tick leaves behind -/

/-- C2. For every environment, all loop variables and every tick input whose memory probe
returns a sample with `SwapUsed == 0`, the tick makes no `cleanSwap()` call. -/
theorem no_clean_when_no_swap (env : Env) (st : LoopState) (inp : TickInput) (m : MemUsage)
    (hm : inp.mem = some m) (h0 : m.SwapUsed = 0) :
    (tick env st inp).cleanCall = none := by
  rw [tick_of_no_swap env st inp m hm h0]

/-- C2 at the sample `memNoSwap` with a low load. -/
theorem no_clean_when_no_swap_witness :
    (tick envExample LoopState.init (inputOf memNoSwap (1 / 2) t0)).cleanCall = none :=
  no_clean_when_no_swap envExample LoopState.init (inputOf memNoSwap (1 / 2) t0) memNoSwap
    rfl rfl

/-- C3. For every tick whose sample has `MemUsed + SwapUsed` above the watermark, no
`cleanSwap()` call is made, whatever the load, the deferral timestamp and `maxWait` are.
The watermark is the value of `maxMem` after lines 286-288, computed by line 287 from a
`MemTotal` below `2^45` bytes and a swappiness in 0..100; "above the watermark" may be
read against `memTotal - swappiness/100 * memTotal` or against the cached `float64`
value; the sum `MemUsed + SwapUsed` is below `2^64`. -/
theorem no_clean_above_watermark (env : Env) (st : LoopState) (inp : TickInput)
    (m : MemUsage) (T : Nat) (hm : inp.mem = some m)
    (hs : 0 ≤ env.swappiness ∧ env.swappiness ≤ 100) (hT : T < 2 ^ 45)
    (hW : newMaxMem env st m = computeWatermark T env.swappiness)
    (hsum : m.MemUsed + m.SwapUsed < 2 ^ 64)
    (hgt : (T : ℚ) - (env.swappiness : ℚ) / 100 * (T : ℚ)
          < (m.MemUsed : ℚ) + (m.SwapUsed : ℚ)
        ∨ newMaxMem env st m < (m.MemUsed : ℚ) + (m.SwapUsed : ℚ)) :
    (tick env st inp).cleanCall = none := by
  by_cases h0 : m.SwapUsed = 0
  · rw [tick_of_no_swap env st inp m hm h0]
  have hc := computeWatermark_close T env.swappiness hs hT
  have hb := computeWatermark_bounds T env.swappiness hs hT
  rw [← hW] at hc hb
  rw [abs_le] at hc
  have hTq : (T : ℚ) < 2 ^ 45 := by exact_mod_cast hT
  have hlt : newMaxMem env st m < (m.MemUsed : ℚ) + (m.SwapUsed : ℚ) := by
    rcases hgt with h | h
    · -- a hundred times the exact watermark is an integer
      have hz : (((T : Int) * (100 - env.swappiness) : Int) : ℚ)
          < (((100 : Int) * ((m.MemUsed + m.SwapUsed : Nat) : Int) : Int) : ℚ) := by
        push_cast
        linarith
      have hz2 : (T : Int) * (100 - env.swappiness) + 1
          ≤ 100 * ((m.MemUsed + m.SwapUsed : Nat) : Int) := by
        have : (T : Int) * (100 - env.swappiness)
            < 100 * ((m.MemUsed + m.SwapUsed : Nat) : Int) := by exact_mod_cast hz
        omega
      have hz3 : (((T : Int) * (100 - env.swappiness) + 1 : Int) : ℚ)
          ≤ (((100 : Int) * ((m.MemUsed + m.SwapUsed : Nat) : Int) : Int) : ℚ) := by
        exact_mod_cast hz2
      push_cast at hz3
      linarith [hc.2]
    · exact h
  have hg : headroomExceeded env st m :=
    headroomExceeded_of_gt_of_swap env st m h0 (by linarith [hb.1]) (by linarith [hb.2])
      hsum hlt
  rw [tick_of_no_headroom env st inp m hm hg]

/-- C3 at the sample `memFull` with a low load: 16 GB in use against a watermark of
14.4 GB. -/
theorem no_clean_above_watermark_witness :
    (tick envExample LoopState.init (inputOf memFull (1 / 2) t0)).cleanCall = none :=
  no_clean_above_watermark envExample LoopState.init (inputOf memFull (1 / 2) t0) memFull
    16000000000 rfl (by decide) (by norm_num)
    (newMaxMem_init envExample memFull)
    (by norm_num [memFull])
    (Or.inl (by norm_num [memFull, envExample]))

theorem tick_cleanCall_of_passed (env : Env) (st : LoopState) (inp : TickInput)
    (m : MemUsage) (la : ℚ) (hm : inp.mem = some m) (hl : inp.la = some la)
    (h0 : m.SwapUsed ≠ 0) (hg : ¬ headroomExceeded env st m) :
    (tick env st inp).cleanCall = some (cleanSwap inp.run) ↔
      (la < env.maxLA ∨ maxWait env = Minute
        ∨ (st.lastCheck ≠ 0 ∧ maxWait env ≤ inp.now - st.lastCheck)) := by
  constructor
  · intro h
    by_contra hno
    simp only [not_or, not_and, not_lt, not_le] at hno
    obtain ⟨hla, hw, hdef⟩ := hno
    by_cases hz : st.lastCheck = 0
    · rw [tick_of_delay_start env st inp m la hm hl h0 hg hla hw hz] at h
      exact absurd h (by simp)
    · rw [tick_of_waiting env st inp m la hm hl h0 hg hla hw hz (hdef hz)] at h
      exact absurd h (by simp)
  · intro hgo
    rw [tick_of_go env st inp m la hm hl h0 hg hgo]
    exact cleanStep_cleanCall _ _

theorem tick_cleanCall_cases (env : Env) (st : LoopState) (inp : TickInput) :
    (tick env st inp).cleanCall = none
      ∨ (tick env st inp).cleanCall = some (cleanSwap inp.run) := by
  cases hm : inp.mem with
  | none => rw [tick_of_mem_error env st inp hm]; exact Or.inl rfl
  | some m =>
    by_cases h0 : m.SwapUsed = 0
    · rw [tick_of_no_swap env st inp m hm h0]; exact Or.inl rfl
    by_cases hg : headroomExceeded env st m
    · rw [tick_of_no_headroom env st inp m hm hg]; exact Or.inl rfl
    cases hl : inp.la with
    | none => rw [tick_of_la_error env st inp m hm hl]; exact Or.inl rfl
    | some la =>
      by_cases hgo : la < env.maxLA ∨ maxWait env = Minute
          ∨ (st.lastCheck ≠ 0 ∧ maxWait env ≤ inp.now - st.lastCheck)
      · exact Or.inr ((tick_cleanCall_of_passed env st inp m la hm hl h0 hg).mpr hgo)
      · simp only [not_or, not_and, not_lt, not_le] at hgo
        obtain ⟨hla, hw, hdef⟩ := hgo
        by_cases hz : st.lastCheck = 0
        · rw [tick_of_delay_start env st inp m la hm hl h0 hg hla hw hz]; exact Or.inl rfl
        · rw [tick_of_waiting env st inp m la hm hl h0 hg hla hw hz (hdef hz)]
          exact Or.inl rfl

/-- C8. The go/no-go rule of one tick. For every tick whose memory and load probes succeed,
with `SwapUsed > 0` and `MemUsed + SwapUsed <= watermark` (the watermark being the value of
`maxMem` after lines 286-288, within the `uint64` range), `cleanSwap()` is called on this
tick if and only if the load is below `maxLA`, or `maxWait` equals `time.Minute`, or
`lastCheck` is non-zero and `now - lastCheck >= maxWait`; otherwise no call is made. In
particular at a load equal to `maxLA` the call is made only by the last two alternatives. -/
theorem clean_iff_go (env : Env) (st : LoopState) (inp : TickInput) (m : MemUsage) (la : ℚ)
    (hm : inp.mem = some m) (hl : inp.la = some la) (h0 : 0 < m.SwapUsed)
    (hsafe : isSafeToClean m.MemUsed m.SwapUsed (newMaxMem env st m))
    (hW : newMaxMem env st m < 2 ^ 64) :
    ((tick env st inp).cleanCall = some (cleanSwap inp.run) ↔
        (la < env.maxLA ∨ maxWait env = Minute
          ∨ (st.lastCheck ≠ 0 ∧ inp.now - st.lastCheck ≥ maxWait env)))
      ∧ ((tick env st inp).cleanCall = none ↔
        ¬ (la < env.maxLA ∨ maxWait env = Minute
          ∨ (st.lastCheck ≠ 0 ∧ inp.now - st.lastCheck ≥ maxWait env)))
      ∧ (la = env.maxLA →
        ((tick env st inp).cleanCall = some (cleanSwap inp.run) ↔
          (maxWait env = Minute
            ∨ (st.lastCheck ≠ 0 ∧ inp.now - st.lastCheck ≥ maxWait env)))) := by
  have hg := not_headroomExceeded_of_safe env st m hsafe hW
  have key := tick_cleanCall_of_passed env st inp m la hm hl (Nat.pos_iff_ne_zero.mp h0) hg
  refine ⟨key, ?_, ?_⟩
  · rw [← key]
    rcases tick_cleanCall_cases env st inp with h | h
    · simp [h]
    · simp [h]
  · intro hla
    rw [key]
    constructor
    · rintro (h | h | h)
      · exact absurd h (by rw [hla]; exact lt_irrefl _)
      · exact Or.inl h
      · exact Or.inr h
    · rintro (h | h)
      · exact Or.inr (Or.inl h)
      · exact Or.inr (Or.inr h)

/-- C8 at a Deferring loop whose deferral started five minutes ago, under a load of 2.5
against `maxLA = 2.0` and `maxWait` of five minutes: the cleaning is forced. -/
theorem clean_iff_go_witness :
    (tick envExample stDeferring (inputOf memExample (5 / 2) (t0 + 5 * Minute))).cleanCall
      = some (cleanSwap runOk) :=
  (clean_iff_go envExample stDeferring (inputOf memExample (5 / 2) (t0 + 5 * Minute))
    memExample (5 / 2) rfl rfl (by decide)
    (by unfold isSafeToClean; rw [newMaxMem_stDeferring]; norm_num [memExample])
    (by rw [newMaxMem_stDeferring]; norm_num)).1.2
    (Or.inr (Or.inr ⟨by decide, by decide⟩))

/-- C9. A tick that is skipped before the hysteresis evaluation leaves the deferral
timestamp as it was. For all loop variables: a tick whose memory probe fails changes
neither `lastCheck` nor `maxMem` and calls no `cleanSwap()`; a tick whose probe returns a
sample and which is skipped because `SwapUsed == 0`, because the headroom guard of line 301
fires (in particular when `MemUsed + SwapUsed`, a sum below `2^64`, exceeds a watermark
within the `uint64` range), or because the load probe fails leaves `lastCheck` unchanged
and calls no `cleanSwap()`. -/
theorem skipped_tick_keeps_deferral (env : Env) (st : LoopState) (inp : TickInput) :
    (inp.mem = none →
        (tick env st inp).state = st ∧ (tick env st inp).cleanCall = none)
      ∧ (∀ m : MemUsage, inp.mem = some m →
          (m.SwapUsed = 0 ∨ headroomExceeded env st m
            ∨ (0 ≤ newMaxMem env st m ∧ newMaxMem env st m < 2 ^ 64
                ∧ m.MemUsed + m.SwapUsed < 2 ^ 64
                ∧ newMaxMem env st m < (m.MemUsed : ℚ) + (m.SwapUsed : ℚ))
            ∨ inp.la = none) →
          (tick env st inp).state.lastCheck = st.lastCheck
            ∧ (tick env st inp).cleanCall = none) := by
  constructor
  · intro hm
    rw [tick_of_mem_error env st inp hm]
    exact ⟨rfl, rfl⟩
  · intro m hm h
    rcases h with h | h | ⟨h1, h2, h3, h4⟩ | h
    · rw [tick_of_no_swap env st inp m hm h]
      exact ⟨rfl, rfl⟩
    · rw [tick_of_no_headroom env st inp m hm h]
      exact ⟨rfl, rfl⟩
    · rw [tick_of_no_headroom env st inp m hm (headroomExceeded_of_gt env st m h1 h2 h3 h4)]
      exact ⟨rfl, rfl⟩
    · rw [tick_of_la_error env st inp m hm h]
      exact ⟨rfl, rfl⟩

/-- C9 at a Deferring loop and a tick whose load probe fails: the deferral timestamp is
still `t0`. -/
theorem skipped_tick_keeps_deferral_witness :
    (tick envExample stDeferring inputLaError).state.lastCheck = t0
      ∧ (tick envExample stDeferring inputLaError).cleanCall = none :=
  (skipped_tick_keeps_deferral envExample stDeferring inputLaError).2 memExample rfl
    (Or.inr (Or.inr (Or.inr rfl)))

/-! ## The configured wait budget -/

/-- C7, as amended. For every `limits:max-wait` value `v` that `validateConfig` accepts
(`1 < v < 86400`), the `maxWait` of `checkLoop` is the positive duration of exactly `v`
minutes, that is `60 * v` seconds (the `int64` product does not wrap). -/
theorem maxWait_is_minutes (v : Int) (hv : validMaxWait v) :
    maxWaitOf v = v * Minute ∧ maxWaitOf v = (60 * v) * Second ∧ 0 < maxWaitOf v := by
  obtain ⟨h1, h2⟩ := hv
  have hM : Minute = 60000000000 := by decide
  have hS : Second = 1000000000 := by decide
  have hmod : (v * 60000000000 + 2 ^ 63) % 2 ^ 64 = v * 60000000000 + 2 ^ 63 :=
    Int.emod_eq_of_lt (by omega) (by omega)
  have hval : maxWaitOf v = v * 60000000000 := by
    unfold maxWaitOf wrapInt64
    rw [hM, hmod]
    ring
  rw [hval, hM, hS]
  refine ⟨rfl, by ring, by omega⟩

/-- C7, as amended, at `limits:max-wait` 5: five minutes. -/
theorem maxWait_is_minutes_witness :
    maxWaitOf 5 = 5 * Minute ∧ maxWaitOf 5 = (60 * 5) * Second ∧ 0 < maxWaitOf 5 :=
  maxWait_is_minutes 5 (by decide)

/-- C7 as stated fails at the accepted value 1440: `maxWait` is 1440 minutes, which is
neither 1440 seconds nor less than 24 hours. -/
theorem maxWait_not_seconds_nor_under_a_day :
    validMaxWait 1440 ∧ maxWaitOf 1440 ≠ 1440 * Second ∧ ¬ maxWaitOf 1440 < 24 * Hour := by
  decide

/-! ## The cached watermark across ticks -/

theorem tick_maxMem_of_mem (env : Env) (st : LoopState) (inp : TickInput) (m : MemUsage)
    (hm : inp.mem = some m) : (tick env st inp).state.maxMem = newMaxMem env st m := by
  by_cases h0 : m.SwapUsed = 0
  · rw [tick_of_no_swap env st inp m hm h0]
  by_cases hg : headroomExceeded env st m
  · rw [tick_of_no_headroom env st inp m hm hg]
  cases hl : inp.la with
  | none => rw [tick_of_la_error env st inp m hm hl]
  | some la =>
    by_cases hgo : la < env.maxLA ∨ maxWait env = Minute
        ∨ (st.lastCheck ≠ 0 ∧ maxWait env ≤ inp.now - st.lastCheck)
    · rw [tick_of_go env st inp m la hm hl h0 hg hgo, cleanStep_maxMem]
    · simp only [not_or, not_and, not_lt, not_le] at hgo
      obtain ⟨hla, hw, hdef⟩ := hgo
      by_cases hz : st.lastCheck = 0
      · rw [tick_of_delay_start env st inp m la hm hl h0 hg hla hw hz]
      · rw [tick_of_waiting env st inp m la hm hl h0 hg hla hw hz (hdef hz)]

theorem tick_keeps_nonzero_maxMem (env : Env) (st : LoopState) (inp : TickInput)
    (h : st.maxMem ≠ 0) : (tick env st inp).state.maxMem = st.maxMem := by
  cases hm : inp.mem with
  | none => rw [tick_of_mem_error env st inp hm]
  | some m => rw [tick_maxMem_of_mem env st inp m hm, newMaxMem_of_ne_zero env st m h]

theorem loopFrom_keeps_nonzero_maxMem (env : Env) (st : LoopState) (inp : Nat → TickInput)
    (h : st.maxMem ≠ 0) (k : Nat) : (loopFrom env st inp k).maxMem = st.maxMem := by
  induction k with
  | zero => rfl
  | succ k ih =>
    show (tick env (loopFrom env st inp k) (inp k)).state.maxMem = st.maxMem
    rw [tick_keeps_nonzero_maxMem env _ _ (by rw [ih]; exact h), ih]

theorem checkLoop_maxMem_before_first_sample (env : Env) (inp : Nat → TickInput) (j : Nat)
    (hpre : ∀ i, i < j → ∀ m, (inp i).mem = some m → m.MemTotal = 0) :
    ∀ k, k ≤ j → (checkLoop env inp k).maxMem = 0 := by
  intro k
  induction k with
  | zero => intro _; rfl
  | succ k ih =>
    intro hk
    have ih2 := ih (by omega)
    show (tick env (checkLoop env inp k) (inp k)).state.maxMem = 0
    cases hm : (inp k).mem with
    | none => rw [tick_of_mem_error env _ _ hm]; exact ih2
    | some m =>
      rw [tick_maxMem_of_mem env _ _ m hm]
      unfold newMaxMem
      rw [if_pos ih2, hpre k (by omega) m hm]
      exact computeWatermark_zero_total _

theorem newMaxMem_lt (env : Env) (st : LoopState) (m : MemUsage)
    (hs : 0 ≤ env.swappiness ∧ env.swappiness ≤ 100) (hT : m.MemTotal < 2 ^ 45)
    (h : st.maxMem < 2 ^ 64) : newMaxMem env st m < 2 ^ 64 := by
  unfold newMaxMem
  split_ifs
  · have hb := computeWatermark_bounds m.MemTotal env.swappiness hs hT
    have hTq : (m.MemTotal : ℚ) < 2 ^ 45 := by exact_mod_cast hT
    linarith [hb.2]
  · exact h

theorem checkLoop_maxMem_lt (env : Env) (inp : Nat → TickInput)
    (hs : 0 ≤ env.swappiness ∧ env.swappiness ≤ 100)
    (hwf : ∀ k m, (inp k).mem = some m → m.MemTotal < 2 ^ 45) (k : Nat) :
    (checkLoop env inp k).maxMem < 2 ^ 64 := by
  induction k with
  | zero =>
    show (0 : ℚ) < 2 ^ 64
    norm_num
  | succ k ih =>
    show (tick env (checkLoop env inp k) (inp k)).state.maxMem < 2 ^ 64
    cases hm : (inp k).mem with
    | none => rw [tick_of_mem_error env _ _ hm]; exact ih
    | some m =>
      rw [tick_maxMem_of_mem env _ _ m hm]
      exact newMaxMem_lt env _ m hs (hwf k m hm) ih

theorem checkLoop_zero (env : Env) (inp : Nat → TickInput) :
    checkLoop env inp 0 = LoopState.init := rfl

theorem checkLoop_succ (env : Env) (inp : Nat → TickInput) (k : Nat) :
    checkLoop env inp (k + 1) = (tick env (checkLoop env inp k) (inp k)).state := rfl

/-- C4, as amended. For a swappiness in 0..99 the watermark is fixed by the first
successfully read sample with `MemTotal != 0`: if tick `j` is the first tick of
`checkLoop` whose memory probe returns a sample `m` with `m.MemTotal != 0`, then after
every later number of ticks `maxMem` is the `float64` value line 287 computes from
`m.MemTotal`, whatever the later samples report; and for `m.MemTotal` below `2^45` that
value is within 7/1000 of `m.MemTotal - swappiness/100 * m.MemTotal`. -/
theorem watermark_fixed_by_first_sample (env : Env) (inp : Nat → TickInput) (j : Nat)
    (m : MemUsage) (hs : 0 ≤ env.swappiness ∧ env.swappiness < 100)
    (hpre : ∀ i, i < j → ∀ m2, (inp i).mem = some m2 → m2.MemTotal = 0)
    (hj : (inp j).mem = some m) (hne : m.MemTotal ≠ 0) :
    ∀ k, j < k →
      (checkLoop env inp k).maxMem = computeWatermark m.MemTotal env.swappiness
        ∧ (m.MemTotal < 2 ^ 45 →
            |(checkLoop env inp k).maxMem
              - ((m.MemTotal : ℚ) - (env.swappiness : ℚ) / 100 * (m.MemTotal : ℚ))|
              ≤ 7 / 1000) := by
  have hpos := computeWatermark_pos m.MemTotal env.swappiness hs hne
  have fixed : ∀ k, j < k →
      (checkLoop env inp k).maxMem = computeWatermark m.MemTotal env.swappiness := by
    intro k
    induction k with
    | zero => intro h; omega
    | succ k ih =>
      intro hk
      rw [checkLoop_succ]
      by_cases hkj : k = j
      · subst hkj
        rw [tick_maxMem_of_mem env _ _ m hj]
        exact newMaxMem_of_zero env _ m
          (checkLoop_maxMem_before_first_sample env inp k hpre k le_rfl)
      · have ih2 := ih (by omega)
        rw [tick_keeps_nonzero_maxMem env _ _ (by rw [ih2]; exact ne_of_gt hpos), ih2]
  intro k hk
  refine ⟨fixed k hk, fun hT => ?_⟩
  rw [fixed k hk]
  exact computeWatermark_close m.MemTotal env.swappiness ⟨hs.1, le_of_lt hs.2⟩ hT

/-- C4, as amended, at `MemTotal` 16,000,000,000 and swappiness 10: the watermark is
14,400,000,000, and it is still so after a second tick that reports 32,000,000,000. -/
theorem watermark_fixed_by_first_sample_witness :
    (growingTrace 1).mem = some memBigger
      ∧ (checkLoop envExample growingTrace 1).maxMem = 14400000000
      ∧ (checkLoop envExample growingTrace 2).maxMem = 14400000000 :=
  ⟨rfl,
    ((watermark_fixed_by_first_sample envExample growingTrace 0 memExample (by decide)
      (fun i hi => absurd hi (Nat.not_lt_zero i)) rfl (by decide) 1 (by decide)).1).trans
      computeWatermark_example,
    ((watermark_fixed_by_first_sample envExample growingTrace 0 memExample (by decide)
      (fun i hi => absurd hi (Nat.not_lt_zero i)) rfl (by decide) 2 (by decide)).1).trans
      computeWatermark_example⟩

/-- C4 as stated fails in `float64`. At swappiness 100 the first sample, with `MemTotal`
16,000,000,000, gives the watermark 0, and the next tick, reporting 16,000,002,048,
changes it to `2^-19`. At swappiness 50 a first sample with `MemTotal` 16,000,014,336
gives 8,000,007,167.999999 (`8388615516192767 / 2^20`), not the 8,000,007,168 of
`memTotal - swappiness/100 * memTotal`. -/
theorem watermark_recomputed_and_rounded :
    (driftTrace 0).mem = some memExample ∧ memExample.MemTotal ≠ 0
      ∧ (driftTrace 1).mem = some memDrift
      ∧ (checkLoop envFull driftTrace 1).maxMem = 0
      ∧ (checkLoop envFull driftTrace 2).maxMem = 1 / 524288
      ∧ (halfTrace 0).mem = some memHalf ∧ memHalf.MemTotal ≠ 0
      ∧ (checkLoop envHalf halfTrace 1).maxMem = 8388615516192767 / 1048576
      ∧ (memHalf.MemTotal : ℚ) - (envHalf.swappiness : ℚ) / 100 * (memHalf.MemTotal : ℚ)
          = 8000007168 := by
  have d1 : (checkLoop envFull driftTrace 1).maxMem = 0 := by
    rw [checkLoop_succ, tick_maxMem_of_mem envFull _ _ memExample rfl]
    exact (newMaxMem_init envFull memExample).trans computeWatermark_full_first
  have d2 : (checkLoop envFull driftTrace 2).maxMem = 1 / 524288 := by
    rw [checkLoop_succ, tick_maxMem_of_mem envFull _ _ memDrift rfl,
      newMaxMem_of_zero envFull _ memDrift d1]
    exact computeWatermark_full_second
  have h1 : (checkLoop envHalf halfTrace 1).maxMem = 8388615516192767 / 1048576 := by
    rw [checkLoop_succ, tick_maxMem_of_mem envHalf _ _ memHalf rfl]
    exact (newMaxMem_init envHalf memHalf).trans computeWatermark_half
  refine ⟨rfl, by decide, rfl, d1, d2, rfl, by decide, h1, ?_⟩
  norm_num [memHalf, envHalf]

/-- On the sample `memHalf` at swappiness 50 the sum `MemUsed + SwapUsed` is 8,000,007,168,
the value of `memTotal - swappiness/100 * memTotal`; the cached `float64` watermark is
8,000,007,167.999999, `uint64(maxMem)` is 8,000,007,167, and the guard of line 301 skips the
tick. -/
theorem halfTrace_tick0_skipped :
    isSafeToClean memHalf.MemUsed memHalf.SwapUsed
        ((memHalf.MemTotal : ℚ) - (envHalf.swappiness : ℚ) / 100 * (memHalf.MemTotal : ℚ))
      ∧ headroomExceeded envHalf LoopState.init memHalf
      ∧ (tick envHalf LoopState.init (halfTrace 0)).cleanCall = none := by
  have hmm : newMaxMem envHalf LoopState.init memHalf = 8388615516192767 / 1048576 :=
    (newMaxMem_init envHalf memHalf).trans computeWatermark_half
  have hfl : ⌊(8388615516192767 / 1048576 : ℚ)⌋ = 8000007167 := by
    rw [Int.floor_eq_iff]
    constructor <;> norm_num
  have hg : headroomExceeded envHalf LoopState.init memHalf := by
    unfold headroomExceeded
    rw [hmm, toUint64_of_inRange _ _ (by norm_num) (by norm_num), hfl]
    decide
  refine ⟨by unfold isSafeToClean; norm_num [memHalf, envHalf], hg, ?_⟩
  rw [tick_of_no_headroom envHalf LoopState.init (halfTrace 0) memHalf rfl hg]

/-! ## Hysteresis under sustained high load -/

theorem Minute_eq : Minute = 60000000000 := by decide

theorem loopFrom_succ (env : Env) (st : LoopState) (inp : Nat → TickInput) (k : Nat) :
    loopFrom env st inp (k + 1) = (tick env (loopFrom env st inp k) (inp k)).state := rfl

/-- C5. Hysteresis trace. Start from loop variables with `lastCheck` zero; let `maxWait`
be `n` minutes with `n >= 2`; let ticks `0..n` read the clock exactly one minute apart,
starting at a non-zero instant `start`, each with a sample that has `SwapUsed > 0` and
`MemUsed + SwapUsed <= watermark` and a load `>= maxLA`. Then tick `0` calls no
`cleanSwap()` and records `start` in `lastCheck`; ticks `1..n-1` call no `cleanSwap()` and
leave `lastCheck` at `start`; tick `n` calls `cleanSwap()`. With `maxLA = 2.0`, `n = 5`
and loads of 2.5 these are the six ticks of the trace: the first defers, the second to
fifth keep deferring, the sixth cleans. -/
theorem hysteresis_defers_then_forces (env : Env) (st : LoopState) (inp : Nat → TickInput)
    (start : Int) (n : Nat)
    (hidle : st.lastCheck = 0) (hn : 2 ≤ n) (hw : maxWait env = (n : Int) * Minute)
    (hstart : start ≠ 0)
    (hnow : ∀ k, k ≤ n → (inp k).now = start + (k : Int) * Minute)
    (hin : ∀ k, k ≤ n → ∃ m la, (inp k).mem = some m ∧ 0 < m.SwapUsed
      ∧ isSafeToClean m.MemUsed m.SwapUsed (newMaxMem env (loopFrom env st inp k) m)
      ∧ newMaxMem env (loopFrom env st inp k) m < 2 ^ 64
      ∧ (inp k).la = some la ∧ env.maxLA ≤ la) :
    ((tick env st (inp 0)).cleanCall = none ∧ (tick env st (inp 0)).state.lastCheck = start)
      ∧ (∀ k, 1 ≤ k → k < n →
          (tick env (loopFrom env st inp k) (inp k)).cleanCall = none
            ∧ (tick env (loopFrom env st inp k) (inp k)).state.lastCheck = start)
      ∧ (tick env (loopFrom env st inp n) (inp n)).cleanCall
          = some (cleanSwap (inp n).run) := by
  have hwne : maxWait env ≠ Minute := by
    rw [hw, Minute_eq]
    omega
  -- the first tick starts the deferral
  have first : (tick env st (inp 0)).cleanCall = none
      ∧ (tick env st (inp 0)).state.lastCheck = start := by
    obtain ⟨m, la, hm, hsw, hsafe, hW, hl, hla⟩ := hin 0 (Nat.zero_le n)
    have hg := not_headroomExceeded_of_safe env st m hsafe hW
    rw [tick_of_delay_start env st (inp 0) m la hm hl (Nat.pos_iff_ne_zero.mp hsw) hg hla
      hwne hidle]
    refine ⟨rfl, ?_⟩
    show (inp 0).now = start
    rw [hnow 0 (Nat.zero_le n)]
    simp
  -- while the budget lasts, a tick with the deferral running changes nothing
  have wait : ∀ k, 1 ≤ k → k < n → (loopFrom env st inp k).lastCheck = start →
      (tick env (loopFrom env st inp k) (inp k)).cleanCall = none
        ∧ (tick env (loopFrom env st inp k) (inp k)).state.lastCheck = start := by
    intro k _ hkn hlc
    obtain ⟨m, la, hm, hsw, hsafe, hW, hl, hla⟩ := hin k (le_of_lt hkn)
    have hg := not_headroomExceeded_of_safe env _ m hsafe hW
    have hz : (loopFrom env st inp k).lastCheck ≠ 0 := by rw [hlc]; exact hstart
    have hlt : (inp k).now - (loopFrom env st inp k).lastCheck < maxWait env := by
      rw [hnow k (le_of_lt hkn), hlc, hw, Minute_eq]
      omega
    rw [tick_of_waiting env _ (inp k) m la hm hl (Nat.pos_iff_ne_zero.mp hsw) hg hla hwne
      hz hlt]
    exact ⟨rfl, hlc⟩
  have inv : ∀ k, 1 ≤ k → k ≤ n → (loopFrom env st inp k).lastCheck = start := by
    intro k
    induction k with
    | zero => intro h; omega
    | succ k ih =>
      intro _ hk
      rw [loopFrom_succ]
      by_cases hk0 : k = 0
      · subst hk0
        exact first.2
      · exact (wait k (by omega) (by omega) (ih (by omega) (by omega))).2
  refine ⟨first, fun k h1 h2 => wait k h1 h2 (inv k h1 (le_of_lt h2)), ?_⟩
  obtain ⟨m, la, hm, hsw, hsafe, hW, hl, _⟩ := hin n le_rfl
  have hg := not_headroomExceeded_of_safe env _ m hsafe hW
  have hlc := inv n (by omega) le_rfl
  rw [tick_of_go env _ (inp n) m la hm hl (Nat.pos_iff_ne_zero.mp hsw) hg
    (Or.inr (Or.inr ⟨by rw [hlc]; exact hstart, by rw [hnow n le_rfl, hlc, hw]; simp⟩))]
  exact cleanStep_cleanCall _ _

theorem highLoadTrace_inputs (k : Nat) :
    ∃ m la, (highLoadTrace k).mem = some m ∧ 0 < m.SwapUsed
      ∧ isSafeToClean m.MemUsed m.SwapUsed
          (newMaxMem envExample (loopFrom envExample stIdle highLoadTrace k) m)
      ∧ newMaxMem envExample (loopFrom envExample stIdle highLoadTrace k) m < 2 ^ 64
      ∧ (highLoadTrace k).la = some la ∧ envExample.maxLA ≤ la := by
  have hne : stIdle.maxMem ≠ 0 := by norm_num [stIdle]
  have hmm : newMaxMem envExample (loopFrom envExample stIdle highLoadTrace k) memExample
      = 14400000000 := by
    rw [newMaxMem_of_ne_zero]
    · rw [loopFrom_keeps_nonzero_maxMem envExample stIdle highLoadTrace hne k]
      rfl
    · rw [loopFrom_keeps_nonzero_maxMem envExample stIdle highLoadTrace hne k]
      exact hne
  refine ⟨memExample, 5 / 2, rfl, by decide, ?_, ?_, rfl, by norm_num [envExample]⟩
  · unfold isSafeToClean
    rw [hmm]
    norm_num [memExample]
  · rw [hmm]
    norm_num

/-- C5 on the trace of the claim: `maxLA = 2.0`, `maxWait` five minutes, six ticks one
minute apart with load 2.5. The first tick defers and records `t0`, the second to fifth
make no call, the sixth calls `cleanSwap()`. -/
theorem hysteresis_defers_then_forces_witness :
    ((tick envExample stIdle (highLoadTrace 0)).cleanCall = none
        ∧ (tick envExample stIdle (highLoadTrace 0)).state.lastCheck = t0)
      ∧ (tick envExample (loopFrom envExample stIdle highLoadTrace 1)
            (highLoadTrace 1)).cleanCall = none
      ∧ (tick envExample (loopFrom envExample stIdle highLoadTrace 2)
            (highLoadTrace 2)).cleanCall = none
      ∧ (tick envExample (loopFrom envExample stIdle highLoadTrace 3)
            (highLoadTrace 3)).cleanCall = none
      ∧ (tick envExample (loopFrom envExample stIdle highLoadTrace 4)
            (highLoadTrace 4)).cleanCall = none
      ∧ (tick envExample (loopFrom envExample stIdle highLoadTrace 5)
            (highLoadTrace 5)).cleanCall = some (cleanSwap runOk) :=
  have h := hysteresis_defers_then_forces envExample stIdle highLoadTrace t0 5 rfl
    (by decide) maxWait_envExample t0_ne_zero (fun _ _ => rfl)
    (fun k _ => highLoadTrace_inputs k)
  ⟨h.1, (h.2.1 1 (by decide) (by decide)).1, (h.2.1 2 (by decide) (by decide)).1,
    (h.2.1 3 (by decide) (by decide)).1, (h.2.1 4 (by decide) (by decide)).1, h.2.2⟩

/-! ## The deferral timestamp after a cleaning attempt -/

theorem not_headroomExceeded_memExample (st : LoopState)
    (h : newMaxMem envExample st memExample = 14400000000) :
    ¬ headroomExceeded envExample st memExample := by
  apply not_headroomExceeded_of_safe
  · unfold isSafeToClean
    rw [h]
    norm_num [memExample]
  · rw [h]
    norm_num

theorem failedCleanTrace_tick0 :
    tick envExample LoopState.init (failedCleanTrace 0) = ⟨stDeferring, none⟩ := by
  have hmm : newMaxMem envExample LoopState.init memExample = 14400000000 := by
    rw [newMaxMem_init]
    exact computeWatermark_example
  rw [tick_of_delay_start envExample LoopState.init (failedCleanTrace 0) memExample (5 / 2)
    rfl rfl (by decide) (not_headroomExceeded_memExample _ hmm)
    (by norm_num [envExample]) maxWait_envExample_ne rfl, hmm]
  rfl

theorem failedCleanTrace_tick1 :
    tick envExample stDeferring (failedCleanTrace 1)
      = ⟨stDeferring, some (cleanSwap runOffExit1)⟩ := by
  have hmm := newMaxMem_stDeferring envExample memExample
  rw [tick_of_go envExample stDeferring (failedCleanTrace 1) memExample (1 / 2)
    rfl rfl (by decide) (not_headroomExceeded_memExample _ hmm)
    (Or.inl (by norm_num [envExample])), hmm]
  rfl

theorem failedCleanTrace_tick2 :
    tick envExample stDeferring (failedCleanTrace 2) = ⟨stDeferring, none⟩ := by
  have hmm := newMaxMem_stDeferring envExample memExample
  rw [tick_of_waiting envExample stDeferring (failedCleanTrace 2) memExample (5 / 2)
    rfl rfl (by decide) (not_headroomExceeded_memExample _ hmm)
    (by norm_num [envExample]) maxWait_envExample_ne (by decide) (by decide), hmm]
  rfl

/-- C1. A run of `checkLoop` on which the claim fails: tick 0 (high load) starts a
deferral at `t0`; tick 1 (low load) calls `cleanSwap()`, which returns the swapoff error,
and `lastCheck` is still `t0`, not zero, after the tick; tick 2 (high load, two minutes
after `t0`) therefore starts no fresh deferral window: it leaves `lastCheck` at `t0`
instead of recording its own clock reading. -/
theorem failed_clean_keeps_deferral_timestamp :
    (checkLoopTick envExample failedCleanTrace 1).cleanCall
        = some ⟨some "Can't disable swap using swapoff: swapoff exited with code 1", [cmdOff]⟩
      ∧ (checkLoopTick envExample failedCleanTrace 1).state.lastCheck = t0
      ∧ t0 ≠ 0
      ∧ (checkLoopTick envExample failedCleanTrace 2).cleanCall = none
      ∧ (checkLoopTick envExample failedCleanTrace 2).state.lastCheck = t0
      ∧ (checkLoopTick envExample failedCleanTrace 2).state.lastCheck
          ≠ (failedCleanTrace 2).now := by
  have s1 : checkLoop envExample failedCleanTrace 1 = stDeferring := by
    rw [checkLoop_succ, checkLoop_zero, failedCleanTrace_tick0]
  have s2 : checkLoop envExample failedCleanTrace 2 = stDeferring := by
    rw [checkLoop_succ, s1, failedCleanTrace_tick1]
  unfold checkLoopTick
  rw [s1, s2, failedCleanTrace_tick1, failedCleanTrace_tick2]
  exact ⟨by decide, rfl, t0_ne_zero, rfl, rfl, by decide⟩

end Daemon
